import Mathlib

/-!
Verification development for the sentinel demo application (src/app.py).

The file embeds, as executable Lean definitions, the two core components of
the application: the text normalization / query matching logic of the
`go_to_sentinel` callback, the scenario-selection flow of `start_flow`,
the chip-selection branch of `go_to_sentinel`, and the knowledge-graph
builder `update_elements` together with the fixed node/edge catalog.
Theorems about these definitions settle the specification claims.

Rational arithmetic is used to model the numeric weights; the four
arithmetic operations on `Rat` are restored to their default reducibility
below so that concrete weight computations can be evaluated by `decide`.
-/

attribute [local semireducible] Rat.mul Rat.add Rat.sub Rat.inv
  Rat.ofScientific

/-! ## Text normalization (`_norm`, src/app.py lines 866-868 and 887-888)

The source is `re.sub(r"[^a-z0-9]+", "", (s or "").lower())`: Python
lower-casing followed by deletion of every character outside `[a-z0-9]`.
-/

/-- One step of Python `str.lower`.  ASCII `A`-`Z` map to `a`-`z`.  Of all
other Unicode code points, exactly two have a lower-casing that contains an
ASCII character (checked against the Unicode tables used by CPython):
`U+0130` (LATIN CAPITAL LETTER I WITH DOT ABOVE) lower-cases to the two
code points `U+0069 U+0307`, and `U+212A` (KELVIN SIGN) lower-cases to
`U+006B` (`k`).  Every remaining code point either is fixed by `lower` or
maps to non-ASCII code points; since the subsequent regex deletes every
non-`[a-z0-9]` character, modelling those as fixed points is exact for the
composition `_norm`. -/
def pyLowerChar (c : Char) : List Char :=
  if 65 ≤ c.toNat ∧ c.toNat ≤ 90 then [Char.ofNat (c.toNat + 32)]
  else if c.toNat = 304 then [Char.ofNat 105, Char.ofNat 775]
  else if c.toNat = 8490 then [Char.ofNat 107]
  else [c]

/-- Python `str.lower` on a whole string. -/
def pyLower (s : String) : String :=
  ⟨(s.toList.map pyLowerChar).flatten⟩

/-- Whether a character survives `re.sub(r"[^a-z0-9]+", "", ·)`:
true exactly for ASCII `a`-`z` and `0`-`9`. -/
def keepChar (c : Char) : Bool :=
  decide ((97 ≤ c.toNat ∧ c.toNat ≤ 122) ∨ (48 ≤ c.toNat ∧ c.toNat ≤ 57))

/-- The normalization helper `_norm` of src/app.py (lines 866-868, repeated
verbatim at lines 887-888): `re.sub(r"[^a-z0-9]+", "", (s or "").lower())`.
`none` models Python `None`; `(s or "")` turns it into the empty string. -/
def pyNorm (s : Option String) : String :=
  ⟨(pyLower (s.getD (""))).toList.filter keepChar⟩

/-- The character-list form of `pyNorm`, used for induction proofs:
lower-case every character, then keep only `[a-z0-9]`. -/
def normList (l : List Char) : List Char :=
  ((l.map pyLowerChar).flatten).filter keepChar

/-- Python substring membership `needle in hay` on strings: `needle` occurs
contiguously inside `hay`. -/
def pyIn (needle hay : String) : Bool :=
  decide (needle.toList <:+: hay.toList)

/-- The supported reference phrase, `SUGGESTIONS[0]` in src/app.py. -/
def refQuery : String :=
  "Predict the main bearing failures in the next 2 months?"

/-- The typo variant of the reference phrase used by the spec. -/
def typoQuery : String :=
  "predict the main beraing failures in the next 2 months?"

/-- `SUPPORTED_NORM` of src/app.py (line 871 and lines 890-892). -/
def SUPPORTED_NORM : String := pyNorm (some refQuery)

def predictTok : String := "predict"

def mainbearingTok : String := "mainbearing"

def mbTok : String := "mb"

def next2monthsTok : String := "next2months"

def nexttwomonthsTok : String := "nexttwomonths"

def next60daysTok : String := "next60days"

/-- The free-text matching decision of the `qa-submit` branch of
`go_to_sentinel` (src/app.py lines 898-909): redirect exactly when this
returns `true`.  The spec names this function `matches_supported_query`. -/
def matchesSupportedQuery (freeText : Option String) : Bool :=
  let qn := pyNorm freeText
  qn == SUPPORTED_NORM ||
    (pyIn predictTok qn &&
      (pyIn mainbearingTok qn || pyIn mbTok qn) &&
      (pyIn next2monthsTok qn || pyIn nexttwomonthsTok qn ||
        pyIn next60daysTok qn))

/-- ASCII-only lower-casing of a single character, as the claim words it. -/
def asciiLowerChar (c : Char) : Char :=
  if 65 ≤ c.toNat ∧ c.toNat ≤ 90 then Char.ofNat (c.toNat + 32) else c

/-- Whether a character is ASCII alphanumeric (`A`-`Z`, `a`-`z`, `0`-`9`). -/
def isAsciiAlnum (c : Char) : Bool :=
  decide ((65 ≤ c.toNat ∧ c.toNat ≤ 90) ∨ (97 ≤ c.toNat ∧ c.toNat ≤ 122) ∨
    (48 ≤ c.toNat ∧ c.toNat ≤ 57))

/-- Written from the claim wording, for comparison with `pyNorm` (the
definition taken from the source): the concatenation, in order, of exactly
the ASCII alphanumeric characters of the input, lower-cased. -/
def asciiAlnumLower (s : String) : String :=
  ⟨(s.toList.filter isAsciiAlnum).map asciiLowerChar⟩

/-! ## Scenario selection flow (`start_flow`, src/app.py lines 780-817)

The callback outputs are the `stage` store, the loader status text and the
error display.  `dash.no_update` is modelled as `none`; an emitted value as
`some`.  The two `html.Div` error messages are modelled by their message
text (the markup wrapper and the emoji span are rendering concerns). -/

/-- Python truthiness of an optional string: `None` and `""` are falsy. -/
def pyTruthyStr (s : Option String) : Bool :=
  match s with
  | none => false
  | some t => !(t == ("" : String))

def goTrig : String := "go"

def settingsTrig : String := "settings"

def selectStage : String := "select"

def loadingStage : String := "loading"

def windTok : String := "wind"

def loaderMsg : String := "Initializing turbine sensors A0–A71..."

def unsupportedMsg : String :=
  "Wind turbines scenario is currently available. Other scenarios coming soon!"

def emptySelectionMsg : String := "Please select a scenario to continue"

/-- The `start_flow` callback of src/app.py (lines 780-817).  `triggered`
is the id of the component that fired (or `none` when nothing triggered);
`searchValue` is the current search input (Python `None` as `none`).
Returns `(stage, loader-status, error-display)` with `none` for
`dash.no_update`. -/
def start_flow (triggered : Option String) (searchValue : Option String) :
    Option String × Option String × Option String :=
  if triggered == some settingsTrig then
    (some selectStage, some (""), some (""))
  else if triggered == some goTrig then
    if pyTruthyStr searchValue &&
        pyIn windTok (pyLower (searchValue.getD (""))) then
      (some loadingStage, some loaderMsg, some (""))
    else if pyTruthyStr searchValue then
      (none, none, some unsupportedMsg)
    else
      (none, none, some emptySelectionMsg)
  else
    (none, none, none)

/-! ## Chip selection (`go_to_sentinel` qchip branch, src/app.py 910-924)

The branch receives the parsed chip index (`chip.get("index")`, which is
`none` when absent or not an `int`) and the list of `n_clicks` values of
all four suggestion chips (each created with `n_clicks=0`, so the entries
are integers).  `raise PreventUpdate` is the no-action outcome; a Python
exception escaping the handler (an `IndexError` from `chip_clicks[idx]`)
is modelled by `Except.error`. -/

inductive ChipAction where
  | redirect
  | noAction
deriving DecidableEq

instance {ε α : Type} [DecidableEq ε] [DecidableEq α] :
    DecidableEq (Except ε α) := fun x y =>
  match x, y with
  | .ok a, .ok b =>
    if h : a = b then isTrue (by rw [h])
    else isFalse (by intro hh; cases hh; exact h rfl)
  | .error a, .error b =>
    if h : a = b then isTrue (by rw [h])
    else isFalse (by intro hh; cases hh; exact h rfl)
  | .ok a, .error b => isFalse Except.noConfusion
  | .error a, .ok b => isFalse Except.noConfusion

def indexErrorMsg : String := "IndexError"

/-- Python list subscription `l[i]`: negative indices count from the end;
an index out of range on either side raises `IndexError`. -/
def pyListGet (l : List Int) (i : Int) : Except String Int :=
  let j : Int := if i < 0 then i + l.length else i
  if 0 ≤ j ∧ j < l.length then .ok (l.getD j.toNat 0)
  else .error indexErrorMsg

/-- The chip-selection decision of `go_to_sentinel` (src/app.py lines
910-924): the guard
`not isinstance(idx, int) or not chip_clicks or idx >= len(chip_clicks)
or chip_clicks[idx] <= 0` raises `PreventUpdate` (no action), then only
`idx == 0` redirects.  The spec names this `resolve_chip_selection`. -/
def resolve_chip_selection (idx : Option Int) (chipClicks : List Int) :
    Except String ChipAction :=
  match idx with
  | none => .ok .noAction
  | some i =>
    if chipClicks.isEmpty then .ok .noAction
    else if (chipClicks.length : Int) ≤ i then .ok .noAction
    else
      match pyListGet chipClicks i with
      | .error msg => .error msg
      | .ok v =>
        if v ≤ 0 then .ok .noAction
        else if i = 0 then .ok .redirect
        else .ok .noAction

/-! ## The fixed catalog (src/app.py lines 29-219)

Node dictionaries carry `id`, `label`, `classes`; the builder later writes
`bgcolor` / `bordercolor` keys into them, so those two keys are modelled
as `Option` fields that start out absent.  Edge dictionaries carry
`source`, `target`, `weight`; every edge is built by `link`, which always
sets `weight`, so the `e["data"].get("weight", 0.5)` default in the
builder can never fire on this catalog. -/

structure NodeRec where
  id : String
  label : String
  classes : String
  bgcolor : Option String := none
  bordercolor : Option String := none
deriving DecidableEq

structure EdgeRec where
  source : String
  target : String
  weight : ℚ
deriving DecidableEq

/-- `RAW_FEATURES` (src/app.py lines 29-39). -/
def RAW_FEATURES : List NodeRec :=
  [⟨"active_power", "Active Power", "raw", none, none⟩,
   ⟨"main_bearing_temperature", "Main Bearing Temp", "raw", none, none⟩,
   ⟨"rotor_speed", "Rotor Speed", "raw", none, none⟩,
   ⟨"temperature_reading", "Ambient Temp", "raw", none, none⟩,
   ⟨"anemometer_reading", "Wind Speed", "raw", none, none⟩]

/-- `PHYSICS_FEATURES` (src/app.py lines 42-60). -/
def PHYSICS_FEATURES : List NodeRec :=
  [⟨"power_efficiency", "Power Efficiency", "physics", none, none⟩,
   ⟨"rotor_response", "Rotor Response", "physics", none, none⟩,
   ⟨"temperature_anomaly", "Temp Anomaly", "physics", none, none⟩,
   ⟨"main_bearing_consecutive_high", "MBT Consecutive High", "physics",
     none, none⟩,
   ⟨"mbt_low_10d", "MBT Low 10d", "physics", none, none⟩,
   ⟨"rotor_low_count_10d", "Rotor Low 10d", "physics", none, none⟩,
   ⟨"rotor_low_count_20d", "Rotor Low 20d", "physics", none, none⟩,
   ⟨"rotor_zero", "Rotor Zero Events", "physics", none, none⟩,
   ⟨"rotor_and_mbt_low_10d", "Rotor & MBT Low", "physics", none, none⟩]

/-- `STATISTICAL_FEATURES` (src/app.py lines 63-124). -/
def STATISTICAL_FEATURES : List NodeRec :=
  [⟨"active_power_moment", "Power Moment", "statistical", none, none⟩,
   ⟨"main_bearing_temperature_moment", "MBT Moment", "statistical",
     none, none⟩,
   ⟨"rotor_speed_moment", "Rotor Moment", "statistical", none, none⟩,
   ⟨"active_power_z_score", "Power Z-Score", "statistical", none, none⟩,
   ⟨"main_bearing_temperature_z_score", "MBT Z-Score", "statistical",
     none, none⟩,
   ⟨"rotor_speed_z_score", "Rotor Z-Score", "statistical", none, none⟩,
   ⟨"active_power_volatility_10d", "Power Volatility", "statistical",
     none, none⟩,
   ⟨"main_bearing_temperature_volatility_10d", "MBT Volatility",
     "statistical", none, none⟩,
   ⟨"rotor_speed_volatility_10d", "Rotor Volatility", "statistical",
     none, none⟩,
   ⟨"active_power_deriv", "Power Derivative", "statistical", none, none⟩,
   ⟨"main_bearing_temperature_deriv", "MBT Derivative", "statistical",
     none, none⟩,
   ⟨"rotor_speed_deriv", "Rotor Derivative", "statistical", none, none⟩]

/-- `ANOMALY_FEATURES` (src/app.py lines 127-139). -/
def ANOMALY_FEATURES : List NodeRec :=
  [⟨"main_bearing_below_ambient_flag", "MBT Below Ambient", "anomaly",
     none, none⟩,
   ⟨"volatility_flag", "High Volatility Flag", "anomaly", none, none⟩,
   ⟨"is_constant", "Constant Reading", "anomaly", none, none⟩]

/-- `OUTCOMES` (src/app.py lines 141-154). -/
def OUTCOMES : List NodeRec :=
  [⟨"is_approaching_outage", "Approaching Outage", "outcome", none, none⟩,
   ⟨"is_within_outage", "Within Outage", "outcome", none, none⟩,
   ⟨"failure_risk", "Failure Risk", "outcome", none, none⟩,
   ⟨"maintenance_required", "Maintenance Required", "outcome", none, none⟩]

/-- `link` (src/app.py lines 160-162). -/
def link (src tgt : String) (w : ℚ) : EdgeRec := ⟨src, tgt, w⟩

/-- `BASE_EDGES` (src/app.py lines 166-219). -/
def BASE_EDGES : List EdgeRec :=
  [link ("active_power") ("power_efficiency") 0.9,
   link ("anemometer_reading") ("power_efficiency") 0.9,
   link ("rotor_speed") ("rotor_response") 0.9,
   link ("anemometer_reading") ("rotor_response") 0.8,
   link ("main_bearing_temperature") ("temperature_anomaly") 0.9,
   link ("temperature_reading") ("temperature_anomaly") 0.8,
   link ("main_bearing_temperature") ("main_bearing_consecutive_high") 0.9,
   link ("main_bearing_temperature") ("mbt_low_10d") 0.8,
   link ("rotor_speed") ("rotor_low_count_10d") 0.9,
   link ("rotor_speed") ("rotor_low_count_20d") 0.9,
   link ("rotor_speed") ("rotor_zero") 0.9,
   link ("rotor_speed") ("rotor_and_mbt_low_10d") 0.7,
   link ("main_bearing_temperature") ("rotor_and_mbt_low_10d") 0.7,
   link ("active_power") ("active_power_moment") 0.9,
   link ("active_power") ("active_power_z_score") 0.8,
   link ("active_power") ("active_power_volatility_10d") 0.8,
   link ("active_power") ("active_power_deriv") 0.9,
   link ("main_bearing_temperature") ("main_bearing_temperature_moment") 0.9,
   link ("main_bearing_temperature") ("main_bearing_temperature_z_score") 0.8,
   link ("main_bearing_temperature")
     ("main_bearing_temperature_volatility_10d") 0.8,
   link ("main_bearing_temperature") ("main_bearing_temperature_deriv") 0.9,
   link ("rotor_speed") ("rotor_speed_moment") 0.9,
   link ("rotor_speed") ("rotor_speed_z_score") 0.8,
   link ("rotor_speed") ("rotor_speed_volatility_10d") 0.8,
   link ("rotor_speed") ("rotor_speed_deriv") 0.9,
   link ("temperature_anomaly") ("main_bearing_below_ambient_flag") 0.8,
   link ("rotor_zero") ("is_constant") 0.7,
   link ("active_power_volatility_10d") ("volatility_flag") 0.8,
   link ("main_bearing_temperature_volatility_10d") ("volatility_flag") 0.8,
   link ("rotor_speed_volatility_10d") ("volatility_flag") 0.8,
   link ("power_efficiency") ("failure_risk") 0.8,
   link ("temperature_anomaly") ("failure_risk") 0.9,
   link ("main_bearing_consecutive_high") ("failure_risk") 0.9,
   link ("main_bearing_temperature_z_score") ("failure_risk") 0.8,
   link ("rotor_speed_z_score") ("failure_risk") 0.7,
   link ("volatility_flag") ("failure_risk") 0.7,
   link ("rotor_zero") ("is_within_outage") 0.9,
   link ("is_constant") ("is_within_outage") 0.8,
   link ("mbt_low_10d") ("is_approaching_outage") 0.7,
   link ("rotor_low_count_10d") ("is_approaching_outage") 0.8,
   link ("rotor_and_mbt_low_10d") ("is_approaching_outage") 0.9,
   link ("main_bearing_below_ambient_flag") ("maintenance_required") 0.8,
   link ("main_bearing_consecutive_high") ("maintenance_required") 0.9,
   link ("active_power_deriv") ("is_approaching_outage") 0.6,
   link ("main_bearing_temperature_deriv") ("failure_risk") 0.7,
   link ("power_efficiency") ("rotor_response") 0.6,
   link ("temperature_anomaly") ("main_bearing_consecutive_high") 0.7,
   link ("active_power_z_score") ("volatility_flag") 0.6,
   link ("rotor_speed_moment") ("rotor_low_count_10d") 0.5]

/-- The process-wide mutable catalog: the five global node lists and the
global edge list of src/app.py, whose dictionaries `update_elements`
mutates in place. -/
structure Catalog where
  raw : List NodeRec
  physics : List NodeRec
  statistical : List NodeRec
  anomaly : List NodeRec
  outcomes : List NodeRec
  edges : List EdgeRec
deriving DecidableEq

/-- The catalog as defined at module load time. -/
def initCatalog : Catalog :=
  ⟨RAW_FEATURES, PHYSICS_FEATURES, STATISTICAL_FEATURES, ANOMALY_FEATURES,
   OUTCOMES, BASE_EDGES⟩

/-! ## The graph builder (`update_elements`, src/app.py lines 932-970)

Machine floats are modelled by exact rationals.  `random.uniform(0.9, 1.1)`
is modelled by an explicit stream `u : ℕ → ℚ` of draws, consumed in edge
order; a draw is admissible when it lies in `[0.9, 1.1]` (per the Python
documentation both endpoints of `uniform` can be returned).  Python
`round(x, 3)` rounds half to even at the third decimal. -/

/-- Round a rational to the nearest integer, ties to even
(the rounding mode of Python `round`). -/
def roundHalfEven (q : ℚ) : ℤ :=
  if q - ⌊q⌋ < 1 / 2 then ⌊q⌋
  else if 1 / 2 < q - ⌊q⌋ then ⌊q⌋ + 1
  else if ⌊q⌋ % 2 = 0 then ⌊q⌋ else ⌊q⌋ + 1

/-- Python `round(x, 3)`. -/
def pyRound3 (x : ℚ) : ℚ := (roundHalfEven (x * 1000) : ℚ) / 1000

/-- One in-place node-color write, for example
`node["bgcolor"] = "#3b82f6"; node["bordercolor"] = "#2563eb"`. -/
def setColor (bg bd : String) (n : NodeRec) : NodeRec :=
  { n with bgcolor := some bg, bordercolor := some bd }

/-- An element of the Cytoscape element list: `as_nodes` wraps a node
dictionary as `{"data": n, "classes": n.get("classes", "")}` and an edge
is passed through as `{"data": {...}}` (src/app.py line 157 and 970). -/
inductive Elem where
  | node (data : NodeRec) (classes : String)
  | edge (data : EdgeRec)
deriving DecidableEq

/-- `as_nodes` (src/app.py line 157).  Every catalog node defines
`classes`, so `n.get("classes", "")` is `n.classes`. -/
def as_nodes (arr : List NodeRec) : List Elem :=
  arr.map (fun n => Elem.node n n.classes)

/-- The edge filter of src/app.py lines 960-964: keep an edge when both
endpoints are in the set of present node ids. -/
def edgeKeep (present : List String) (e : EdgeRec) : Bool :=
  decide (e.source ∈ present) && decide (e.target ∈ present)

/-- The in-place reweighting loop of src/app.py lines 966-969, expressed
over the whole shared edge list: each edge that passed the filter has its
`weight` overwritten by `round(weight * uniform(0.9, 1.1), 3)`, consuming
one draw of `u` per surviving edge in list order; edges that did not pass
are left untouched. -/
def applyReweight (u : ℕ → ℚ) (p : EdgeRec → Bool) : ℕ → List EdgeRec →
    List EdgeRec
  | _, [] => []
  | k, e :: es =>
    if p e then
      { e with weight := pyRound3 (e.weight * u k) } ::
        applyReweight u p (k + 1) es
    else e :: applyReweight u p k es

def physicsTok : String := "physics"

def statisticalTok : String := "statistical"

def anomalyTok : String := "anomaly"

/-- The `update_elements` callback (src/app.py lines 932-970).  It both
mutates the shared catalog (color fields of the always-on and active node
lists, weights of surviving edges) and returns the element list
`as_nodes(nodes) + edges`; the result is the pair
`(catalog after the call, returned element list)`.  In the source,
`nodes = RAW_FEATURES + OUTCOMES` shares the node dictionaries that the
subsequent color writes mutate, so the returned list carries the colored
records. -/
def update_elements (layers : List String) (u : ℕ → ℚ) (cat : Catalog) :
    Catalog × List Elem :=
  let raw2 := cat.raw.map (setColor ("#3b82f6") ("#2563eb"))
  let out2 := cat.outcomes.map (setColor ("#f59e0b") ("#d97706"))
  let phys2 := if physicsTok ∈ layers then
      cat.physics.map (setColor ("#10b981") ("#059669"))
    else cat.physics
  let stat2 := if statisticalTok ∈ layers then
      cat.statistical.map (setColor ("#8b5cf6") ("#7c3aed"))
    else cat.statistical
  let anom2 := if anomalyTok ∈ layers then
      cat.anomaly.map (setColor ("#ef4444") ("#dc2626"))
    else cat.anomaly
  let nodes := raw2 ++ out2 ++
    (if physicsTok ∈ layers then phys2 else []) ++
    (if statisticalTok ∈ layers then stat2 else []) ++
    (if anomalyTok ∈ layers then anom2 else [])
  let present := nodes.map NodeRec.id
  let newEdges := applyReweight u (edgeKeep present) 0 cat.edges
  (⟨raw2, phys2, stat2, anom2, out2, newEdges⟩,
    as_nodes nodes ++ (newEdges.filter (edgeKeep present)).map Elem.edge)

/-- The node ids of an element list. -/
def outputNodeIds (elems : List Elem) : List String :=
  elems.filterMap (fun el =>
    match el with
    | .node n _ => some n.id
    | .edge _ => none)

/-- The edge records of an element list. -/
def outputEdgeData (elems : List Elem) : List EdgeRec :=
  elems.filterMap (fun el =>
    match el with
    | .node _ _ => none
    | .edge e => some e)

/-- The ids of a catalog node list. -/
def catalogIds (l : List NodeRec) : List String := l.map NodeRec.id

/-- The identity-giving part of a node record: everything except the two
color fields that the builder writes. -/
def nodeCore (n : NodeRec) : String × String × String :=
  (n.id, n.label, n.classes)

/-- The endpoints of an edge record. -/
def edgeEnds (e : EdgeRec) : String × String := (e.source, e.target)

/-! ## Lemmas about normalization -/

theorem normList_cons (c : Char) (cs : List Char) :
    normList (c :: cs) = (pyLowerChar c).filter keepChar ++ normList cs := by
  simp [normList]

theorem keepChar_iff (c : Char) : keepChar c = true ↔
    (97 ≤ c.toNat ∧ c.toNat ≤ 122) ∨ (48 ≤ c.toNat ∧ c.toNat ≤ 57) := by
  simp [keepChar]

theorem pyLowerChar_of_keep (c : Char) (h : keepChar c = true) :
    pyLowerChar c = [c] := by
  rw [keepChar_iff] at h
  unfold pyLowerChar
  split_ifs with h1 h2 h3
  · exact absurd h (by omega)
  · exact absurd h (by omega)
  · exact absurd h (by omega)
  · rfl

theorem mem_normList_keep {l : List Char} {c : Char} (h : c ∈ normList l) :
    keepChar c = true :=
  (List.mem_filter.mp h).2

theorem normList_fixed (l : List Char) (h : ∀ c ∈ l, keepChar c = true) :
    normList l = l := by
  induction l with
  | nil => rfl
  | cons c cs ih =>
    have hc : keepChar c = true := h c (List.mem_cons_self c cs)
    rw [normList_cons, pyLowerChar_of_keep c hc]
    simp [List.filter_cons, hc,
      ih (fun x hx => h x (List.mem_cons_of_mem c hx))]

theorem normList_idem (l : List Char) :
    normList (normList l) = normList l :=
  normList_fixed _ (fun _ hc => mem_normList_keep hc)

theorem toNat_ofNat_char (m : ℕ) (h : m < 55296) :
    (Char.ofNat m).toNat = m := by
  simp [Char.ofNat, Nat.isValidChar, h, Char.ofNatAux, Char.toNat,
    UInt32.toNat, BitVec.toNat_ofNatLt]

theorem normList_ascii (l : List Char)
    (h : ∀ c ∈ l, c.toNat ≠ 304 ∧ c.toNat ≠ 8490) :
    normList l = (l.filter isAsciiAlnum).map asciiLowerChar := by
  induction l with
  | nil => rfl
  | cons c cs ih =>
    have hc := h c (List.mem_cons_self c cs)
    have ih2 := ih (fun x hx => h x (List.mem_cons_of_mem c hx))
    rw [normList_cons]
    by_cases h1 : 65 ≤ c.toNat ∧ c.toNat ≤ 90
    · have hlow : pyLowerChar c = [Char.ofNat (c.toNat + 32)] := by
        unfold pyLowerChar
        rw [if_pos h1]
      have ht : (Char.ofNat (c.toNat + 32)).toNat = c.toNat + 32 :=
        toNat_ofNat_char _ (by omega)
      have hk : keepChar (Char.ofNat (c.toNat + 32)) = true := by
        rw [keepChar_iff, ht]
        omega
      have ha : isAsciiAlnum c = true := by
        simp only [isAsciiAlnum, decide_eq_true_eq]
        omega
      have hlo : asciiLowerChar c = Char.ofNat (c.toNat + 32) := by
        unfold asciiLowerChar
        rw [if_pos h1]
      rw [hlow]
      simp [List.filter_cons, hk, ha, hlo, ih2]
    · have hlow : pyLowerChar c = [c] := by
        unfold pyLowerChar
        rw [if_neg h1, if_neg hc.1, if_neg hc.2]
      have hlo : asciiLowerChar c = c := by
        unfold asciiLowerChar
        rw [if_neg h1]
      rw [hlow]
      by_cases h2 : keepChar c = true
      · have ha : isAsciiAlnum c = true := by
          rw [keepChar_iff] at h2
          simp only [isAsciiAlnum, decide_eq_true_eq]
          omega
        simp [List.filter_cons, h2, ha, hlo, ih2]
      · have h2n : ¬((97 ≤ c.toNat ∧ c.toNat ≤ 122) ∨
            (48 ≤ c.toNat ∧ c.toNat ≤ 57)) := by
          rw [keepChar_iff] at h2
          exact h2
        have ha : isAsciiAlnum c = false := by
          simp only [isAsciiAlnum, decide_eq_false_iff_not]
          omega
        simp [List.filter_cons, h2, ha, ih2]

/-! ## Claim C10 -/

/-- C10: `normalize` is idempotent (`_norm (_norm s) = _norm s` for every
string), and `matches_supported_query` depends only on the canonical form
of its input: inputs with equal canonical forms get the same decision. -/
theorem norm_idempotent :
    (∀ s : String, pyNorm (some (pyNorm (some s))) = pyNorm (some s)) ∧
    (∀ s t : Option String, pyNorm s = pyNorm t →
      matchesSupportedQuery s = matchesSupportedQuery t) := by
  constructor
  · intro s
    show String.mk (normList (normList s.toList)) =
      String.mk (normList s.toList)
    rw [normList_idem]
  · intro s t h
    simp only [matchesSupportedQuery]
    rw [h]

/-- Witness for the C10 theorem: two concrete inputs with the same
canonical form receive the same matching decision. -/
theorem norm_idempotent_witness :
    matchesSupportedQuery (some ("PREDICT MB NEXT 60 DAYS")) =
      matchesSupportedQuery (some ("predict mb next 60 days")) :=
  norm_idempotent.2 _ _ (by decide)

/-! ## Claim C9 -/

/-- C9 (amended): for every string none of whose characters is `U+0130` or
`U+212A` (the only two code points whose Python lower-casing introduces
ASCII characters), `_norm` returns exactly the ASCII alphanumeric
characters of the input, lower-cased, in order; `_norm` of `None` and of
the empty string is the empty string.  The two excluded code points are
genuine counterexamples to the unrestricted claim. -/
theorem norm_ascii_characterization :
    (∀ s : String, (∀ c ∈ s.toList, c.toNat ≠ 304 ∧ c.toNat ≠ 8490) →
      pyNorm (some s) = asciiAlnumLower s) ∧
    pyNorm none = "" ∧ pyNorm (some ("")) = "" := by
  refine ⟨?_, by decide, by decide⟩
  intro s h
  show String.mk (normList s.toList) = asciiAlnumLower s
  rw [normList_ascii s.toList h]
  rfl

/-- Witness for the amended C9 theorem at a concrete input. -/
theorem norm_ascii_characterization_witness :
    pyNorm (some ("Hello, World 42!")) =
      asciiAlnumLower ("Hello, World 42!") :=
  norm_ascii_characterization.1 _ (by decide)

/-- C9 counterexample: Python lower-cases `U+212A` (KELVIN SIGN) to the
ASCII letter `k`, so `_norm` emits a character that is not among the ASCII
alphanumeric characters of the input (of which there are none). -/
theorem norm_kelvin_counterexample :
    pyNorm (some (String.mk [Char.ofNat 8490])) = "k" ∧
    asciiAlnumLower (String.mk [Char.ofNat 8490]) = "" ∧
    ("k" : String) ≠ "" :=
  ⟨by decide, by decide, by decide⟩

/-! ## Claim C2 -/

/-- C2: evaluation of the code at the typo phrase.  Contrary to the claim
(and to the comment in the source, which presents "beraing" as a handled
typo), the canonical forms of the reference phrase and of the typo phrase
differ, and the typo phrase is not matched: normalization only deletes
non-alphanumeric characters, so the transposed letters survive, and the
heuristic clause fails because neither "mainbearing" nor "mb" occurs in
the typo canonical form. -/
theorem typo_phrase_not_matched :
    pyNorm (some typoQuery) ≠ pyNorm (some refQuery) ∧
    matchesSupportedQuery (some typoQuery) = false ∧
    matchesSupportedQuery (some refQuery) = true :=
  ⟨by decide, by decide, by decide⟩

/-! ## Claim C6 -/

/-- C6: `matches_supported_query` returns true exactly when the canonical
form equals the canonical form of the reference phrase, or contains
"predict", one of "mainbearing"/"mb", and one of
"next2months"/"nexttwomonths"/"next60days"; it is false on empty and
`None` input, and true on "predict mb next 60 days". -/
theorem matches_supported_query_characterization :
    (∀ t : Option String, matchesSupportedQuery t = true ↔
      (pyNorm t = pyNorm (some refQuery) ∨
        (predictTok.toList <:+: (pyNorm t).toList ∧
          (mainbearingTok.toList <:+: (pyNorm t).toList ∨
            mbTok.toList <:+: (pyNorm t).toList) ∧
          (next2monthsTok.toList <:+: (pyNorm t).toList ∨
            nexttwomonthsTok.toList <:+: (pyNorm t).toList ∨
            next60daysTok.toList <:+: (pyNorm t).toList)))) ∧
    matchesSupportedQuery (some ("")) = false ∧
    matchesSupportedQuery none = false ∧
    matchesSupportedQuery (some ("predict mb next 60 days")) = true := by
  refine ⟨?_, by decide, by decide, by decide⟩
  intro t
  simp only [matchesSupportedQuery, SUPPORTED_NORM, pyIn, Bool.or_eq_true,
    Bool.and_eq_true, beq_iff_eq, decide_eq_true_eq]
  tauto

/-! ## Claim C7 -/

/-- C7 (amended): chip index 0 yields redirect exactly when its recorded
click count is positive; a non-integer index, an empty click list, a
non-negative out-of-range index, a negative index reaching back into the
list, a valid nonzero index and an unclicked chip all yield no-action; but
a negative index below minus the list length raises `IndexError` (Python
negative indexing), so not every out-of-range index yields no-action. -/
theorem resolve_chip_characterization :
    (∀ (i : ℤ) (clicks : List ℤ),
      resolve_chip_selection (some i) clicks =
        (if clicks ≠ [] ∧ i < -(clicks.length : ℤ) then
          Except.error indexErrorMsg
        else if i = 0 ∧ 0 < clicks.headD 0 then Except.ok ChipAction.redirect
        else Except.ok ChipAction.noAction)) ∧
    (∀ clicks : List ℤ, resolve_chip_selection none clicks =
      Except.ok ChipAction.noAction) := by
  refine ⟨?_, fun clicks => rfl⟩
  intro i clicks
  cases clicks with
  | nil => simp [resolve_chip_selection]
  | cons c cs =>
    simp only [resolve_chip_selection, pyListGet, List.isEmpty_cons,
      Bool.false_eq_true, if_false, List.headD_cons, ne_eq,
      reduceCtorEq, not_false_eq_true, true_and, List.length_cons]
    push_cast
    by_cases hA : ((cs.length : ℤ) + 1) ≤ i
    · rw [if_pos hA, if_neg (by omega : ¬i < -((cs.length : ℤ) + 1)),
        if_neg (by omega : ¬(i = 0 ∧ 0 < c))]
    · rw [if_neg hA]
      by_cases hi0 : i = 0
      · subst hi0
        rw [if_neg (by omega : ¬(0 : ℤ) < 0)]
        rw [if_pos (by omega : (0 : ℤ) ≤ 0 ∧ (0 : ℤ) < (cs.length : ℤ) + 1)]
        rw [if_neg (by omega : ¬(0 : ℤ) < -((cs.length : ℤ) + 1))]
        show (if (c :: cs).getD (0 : ℤ).toNat 0 ≤ 0 then
            Except.ok ChipAction.noAction
          else if (0 : ℤ) = 0 then Except.ok ChipAction.redirect
          else Except.ok ChipAction.noAction) = _
        have hg : (c :: cs).getD (0 : ℤ).toNat 0 = c := rfl
        rw [hg]
        by_cases hc : c ≤ 0
        · rw [if_pos hc, if_neg (by omega : ¬((0 : ℤ) = 0 ∧ 0 < c))]
        · rw [if_neg hc, if_pos (rfl : (0 : ℤ) = 0),
            if_pos (by omega : (0 : ℤ) = 0 ∧ 0 < c)]
      · by_cases hneg : i < 0
        · by_cases hrange : 0 ≤ i + ((cs.length : ℤ) + 1)
          · rw [if_pos hneg]
            rw [if_pos (by omega : 0 ≤ i + ((cs.length : ℤ) + 1) ∧
              i + ((cs.length : ℤ) + 1) < (cs.length : ℤ) + 1)]
            rw [if_neg (by omega : ¬i < -((cs.length : ℤ) + 1))]
            rw [if_neg (by omega : ¬(i = 0 ∧ 0 < c))]
            simp [hi0]
          · rw [if_pos hneg]
            rw [if_neg (by omega : ¬(0 ≤ i + ((cs.length : ℤ) + 1) ∧
              i + ((cs.length : ℤ) + 1) < (cs.length : ℤ) + 1))]
            rw [if_pos (by omega : i < -((cs.length : ℤ) + 1))]
        · rw [if_neg hneg]
          rw [if_pos (by omega : 0 ≤ i ∧ i < (cs.length : ℤ) + 1)]
          rw [if_neg (by omega : ¬i < -((cs.length : ℤ) + 1))]
          rw [if_neg (by omega : ¬(i = 0 ∧ 0 < c))]
          simp [hi0]

/-! ## Claim C8 -/

/-- C8: on a go submission, the stage moves to `loading` exactly when the
submitted scenario text is non-empty and contains "wind" after
lower-casing; any other non-empty text leaves the stage unchanged
(`dash.no_update`, modelled `none`) and shows the unsupported-scenario
message; empty or missing text leaves the stage unchanged and shows the
empty-selection message. -/
theorem scenario_flow (sv : Option String) :
    ((start_flow (some goTrig) sv).1 = some loadingStage ↔
      (pyTruthyStr sv = true ∧
        windTok.toList <:+: (pyLower (sv.getD (""))).toList)) ∧
    start_flow (some goTrig) sv =
      (if pyTruthyStr sv = true ∧
          windTok.toList <:+: (pyLower (sv.getD (""))).toList then
        (some loadingStage, some loaderMsg, some (""))
      else if pyTruthyStr sv = true then (none, none, some unsupportedMsg)
      else (none, none, some emptySelectionMsg)) := by
  by_cases h1 : pyTruthyStr sv = true <;>
    by_cases h2 : windTok.data <:+: (pyLower (sv.getD (""))).data <;>
      simp [start_flow, pyIn, h1, h2, loadingStage, selectStage, goTrig,
        settingsTrig, String.toList]

/-! ## Lemmas about the graph builder -/

theorem outputNodeIds_append (l1 l2 : List Elem) :
    outputNodeIds (l1 ++ l2) = outputNodeIds l1 ++ outputNodeIds l2 := by
  simp [outputNodeIds, List.filterMap_append]

theorem outputEdgeData_append (l1 l2 : List Elem) :
    outputEdgeData (l1 ++ l2) = outputEdgeData l1 ++ outputEdgeData l2 := by
  simp [outputEdgeData, List.filterMap_append]

theorem outputNodeIds_as_nodes (nodes : List NodeRec) :
    outputNodeIds (as_nodes nodes) = nodes.map NodeRec.id := by
  induction nodes with
  | nil => rfl
  | cons n ns ih =>
    simp only [as_nodes, List.map_cons, outputNodeIds,
      List.filterMap_cons] at ih ⊢
    rw [ih]

theorem outputNodeIds_edge_elems (es : List EdgeRec) :
    outputNodeIds (es.map Elem.edge) = [] := by
  induction es with
  | nil => rfl
  | cons e es ih =>
    simp only [List.map_cons, outputNodeIds, List.filterMap_cons] at ih ⊢
    exact ih

theorem outputEdgeData_as_nodes (nodes : List NodeRec) :
    outputEdgeData (as_nodes nodes) = [] := by
  induction nodes with
  | nil => rfl
  | cons n ns ih =>
    simp only [as_nodes, List.map_cons, outputEdgeData,
      List.filterMap_cons] at ih ⊢
    exact ih

theorem outputEdgeData_edge_elems (es : List EdgeRec) :
    outputEdgeData (es.map Elem.edge) = es := by
  induction es with
  | nil => rfl
  | cons e es ih =>
    simp only [List.map_cons, outputEdgeData, List.filterMap_cons] at ih ⊢
    rw [ih]

theorem setColor_id (bg bd : String) (n : NodeRec) :
    (setColor bg bd n).id = n.id := rfl

theorem map_id_setColor (bg bd : String) (l : List NodeRec) :
    (l.map (setColor bg bd)).map NodeRec.id = l.map NodeRec.id := by
  rw [List.map_map]
  rfl

theorem map_core_setColor (bg bd : String) (l : List NodeRec) :
    (l.map (setColor bg bd)).map nodeCore = l.map nodeCore := by
  rw [List.map_map]
  rfl

theorem applyReweight_ends (u : ℕ → ℚ) (p : EdgeRec → Bool) :
    ∀ (k : ℕ) (l : List EdgeRec),
      (applyReweight u p k l).map edgeEnds = l.map edgeEnds := by
  intro k l
  induction l generalizing k with
  | nil => rfl
  | cons e es ih =>
    by_cases hp : p e = true
    · simp [applyReweight, hp, edgeEnds, ih]
    · simp [applyReweight, hp, edgeEnds, ih]

theorem mem_applyReweight (u : ℕ → ℚ) (p : EdgeRec → Bool) :
    ∀ {k : ℕ} {l : List EdgeRec} {d : EdgeRec}, d ∈ applyReweight u p k l →
      ∃ e ∈ l, d.source = e.source ∧ d.target = e.target ∧
        (p e = false → d = e) ∧
        (p e = true → ∃ j, d.weight = pyRound3 (e.weight * u j)) := by
  intro k l
  induction l generalizing k with
  | nil =>
    intro d h
    exact absurd h (List.not_mem_nil d)
  | cons e es ih =>
    intro d h
    by_cases hp : p e = true
    · rw [applyReweight, if_pos hp] at h
      rcases List.mem_cons.mp h with h0 | h0
      · subst h0
        exact ⟨e, List.mem_cons_self e es, rfl, rfl,
          fun hf => absurd hp (by simp [hf]),
          fun _ => ⟨k, rfl⟩⟩
      · obtain ⟨e2, he2, hs, ht, hf, ht2⟩ := ih h0
        exact ⟨e2, List.mem_cons_of_mem e he2, hs, ht, hf, ht2⟩
    · rw [applyReweight, if_neg hp] at h
      rcases List.mem_cons.mp h with h0 | h0
      · exact ⟨e, List.mem_cons_self e es, by rw [h0], by rw [h0],
          fun _ => h0, fun hpe => absurd hpe hp⟩
      · obtain ⟨e2, he2, hs, ht, hf, ht2⟩ := ih h0
        exact ⟨e2, List.mem_cons_of_mem e he2, hs, ht, hf, ht2⟩

theorem applyReweight_mem_of_mem (u : ℕ → ℚ) (p : EdgeRec → Bool) :
    ∀ {k : ℕ} {l : List EdgeRec} {e : EdgeRec}, e ∈ l → p e = true →
      ∃ j, ({ e with weight := pyRound3 (e.weight * u j) } : EdgeRec) ∈
        applyReweight u p k l := by
  intro k l
  induction l generalizing k with
  | nil =>
    intro e h
    exact absurd h (List.not_mem_nil e)
  | cons a as ih =>
    intro e he hpe
    rcases List.mem_cons.mp he with h0 | h0
    · subst h0
      refine ⟨k, ?_⟩
      rw [applyReweight, if_pos hpe]
      exact List.mem_cons_self _ _
    · by_cases hpa : p a = true
      · obtain ⟨j, hj⟩ := ih h0 hpe (k := k + 1)
        refine ⟨j, ?_⟩
        rw [applyReweight, if_pos hpa]
        exact List.mem_cons_of_mem _ hj
      · obtain ⟨j, hj⟩ := ih h0 hpe (k := k)
        refine ⟨j, ?_⟩
        rw [applyReweight, if_neg hpa]
        exact List.mem_cons_of_mem _ hj

theorem edgeKeep_congr (present : List String) {d e : EdgeRec}
    (hs : d.source = e.source) (ht : d.target = e.target) :
    edgeKeep present d = edgeKeep present e := by
  simp [edgeKeep, hs, ht]

theorem edgeKeep_eq_true (present : List String) (e : EdgeRec) :
    edgeKeep present e = true ↔
      (e.source ∈ present ∧ e.target ∈ present) := by
  simp [edgeKeep]

/-! ## Claim C4 -/

/-- C4: the node set of the built graph contains every raw and outcome
node id; it contains a physics, statistical or anomaly node id exactly
when that category is toggled on; and category tokens outside the three
optional ones are ignored: filtering the toggle list down to the three
known tokens changes nothing (so unknown tokens cause no failure and no
effect). -/
theorem build_node_set :
    (∀ (T : List String) (u : ℕ → ℚ) (s : String),
      s ∈ outputNodeIds (update_elements T u initCatalog).2 ↔
        (s ∈ catalogIds RAW_FEATURES ∨ s ∈ catalogIds OUTCOMES ∨
          (s ∈ catalogIds PHYSICS_FEATURES ∧ physicsTok ∈ T) ∨
          (s ∈ catalogIds STATISTICAL_FEATURES ∧ statisticalTok ∈ T) ∨
          (s ∈ catalogIds ANOMALY_FEATURES ∧ anomalyTok ∈ T))) ∧
    (∀ (T : List String) (u : ℕ → ℚ) (cat : Catalog),
      update_elements T u cat =
        update_elements (T.filter (fun c =>
          [physicsTok, statisticalTok, anomalyTok].contains c)) u cat) := by
  constructor
  · intro T u s
    simp only [update_elements]
    rw [outputNodeIds_append, outputNodeIds_as_nodes,
      outputNodeIds_edge_elems, List.append_nil]
    by_cases hp : physicsTok ∈ T <;>
      by_cases hst : statisticalTok ∈ T <;>
        by_cases ha : anomalyTok ∈ T <;>
          simp [hp, hst, ha, map_id_setColor, setColor_id, catalogIds,
            initCatalog, List.mem_append]
  · intro T u cat
    have hp : (physicsTok ∈ T.filter (fun c =>
        [physicsTok, statisticalTok, anomalyTok].contains c)) ↔
        physicsTok ∈ T := by
      simp [List.mem_filter]
    have hst : (statisticalTok ∈ T.filter (fun c =>
        [physicsTok, statisticalTok, anomalyTok].contains c)) ↔
        statisticalTok ∈ T := by
      simp [List.mem_filter]
    have ha : (anomalyTok ∈ T.filter (fun c =>
        [physicsTok, statisticalTok, anomalyTok].contains c)) ↔
        anomalyTok ∈ T := by
      simp [List.mem_filter]
    simp only [update_elements, hp, hst, ha]

/-! ## Claim C5 -/

theorem edges_filter_spec (present : List String) (edges0 : List EdgeRec)
    (u : ℕ → ℚ) (e : EdgeRec) (he : e ∈ edges0) :
    ((∃ w : ℚ, (⟨e.source, e.target, w⟩ : EdgeRec) ∈
        (applyReweight u (edgeKeep present) 0 edges0).filter
          (edgeKeep present)) ↔
      (e.source ∈ present ∧ e.target ∈ present)) ∧
    (∀ d ∈ (applyReweight u (edgeKeep present) 0 edges0).filter
        (edgeKeep present),
      d.source ∈ present ∧ d.target ∈ present) := by
  constructor
  · constructor
    · rintro ⟨w, hw⟩
      have h1 := List.mem_filter.mp hw
      exact (edgeKeep_eq_true present _).mp h1.2
    · rintro ⟨hs, ht⟩
      have hke : edgeKeep present e = true :=
        (edgeKeep_eq_true present e).mpr ⟨hs, ht⟩
      obtain ⟨j, hj⟩ :=
        applyReweight_mem_of_mem u (edgeKeep present) he hke (k := 0)
      refine ⟨pyRound3 (e.weight * u j), List.mem_filter.mpr ⟨hj, ?_⟩⟩
      exact (edgeKeep_congr present rfl rfl).trans hke
  · intro d hd
    have h1 := List.mem_filter.mp hd
    exact (edgeKeep_eq_true present d).mp h1.2

/-- C5: an edge of the catalog appears (with some weight) in the output of
the builder exactly when both its endpoints are in the output node set,
and every edge element of the output has both endpoints in the output node
set: no dangling edges. -/
theorem edge_materialization (cat : Catalog) (T : List String)
    (u : ℕ → ℚ) (e : EdgeRec) (he : e ∈ cat.edges) :
    ((∃ w : ℚ, (⟨e.source, e.target, w⟩ : EdgeRec) ∈
        outputEdgeData (update_elements T u cat).2) ↔
      (e.source ∈ outputNodeIds (update_elements T u cat).2 ∧
        e.target ∈ outputNodeIds (update_elements T u cat).2)) ∧
    (∀ d ∈ outputEdgeData (update_elements T u cat).2,
      d.source ∈ outputNodeIds (update_elements T u cat).2 ∧
      d.target ∈ outputNodeIds (update_elements T u cat).2) := by
  simp only [update_elements]
  rw [outputEdgeData_append, outputEdgeData_as_nodes,
    outputEdgeData_edge_elems, List.nil_append, outputNodeIds_append,
    outputNodeIds_as_nodes, outputNodeIds_edge_elems, List.append_nil]
  exact edges_filter_spec _ cat.edges u e he

/-- Witness for the C5 theorem: the first catalog edge, with the physics
layer on, under the constant draw 1. -/
theorem edge_materialization_witness :
    ((∃ w : ℚ,
        (⟨(link ("active_power") ("power_efficiency") 0.9).source,
          (link ("active_power") ("power_efficiency") 0.9).target,
          w⟩ : EdgeRec) ∈
        outputEdgeData
          (update_elements [physicsTok] (fun _ => 1) initCatalog).2) ↔
      ((link ("active_power") ("power_efficiency") 0.9).source ∈
        outputNodeIds
          (update_elements [physicsTok] (fun _ => 1) initCatalog).2 ∧
       (link ("active_power") ("power_efficiency") 0.9).target ∈
        outputNodeIds
          (update_elements [physicsTok] (fun _ => 1) initCatalog).2)) ∧
    (∀ d ∈ outputEdgeData
        (update_elements [physicsTok] (fun _ => 1) initCatalog).2,
      d.source ∈ outputNodeIds
        (update_elements [physicsTok] (fun _ => 1) initCatalog).2 ∧
      d.target ∈ outputNodeIds
        (update_elements [physicsTok] (fun _ => 1) initCatalog).2) :=
  edge_materialization initCatalog [physicsTok] (fun _ => 1)
    (link ("active_power") ("power_efficiency") 0.9) (by decide)

/-! ## Claim C3 -/

/-- C3 (amended): the builder is not pure — it mutates the shared catalog
(the counterexample theorem shows color fields appear on node records and
stored edge weights change) — but the mutation is confined to the two
color fields and the weight: ids, labels and classes of every node list
and the endpoints of every edge are preserved by every call, for every
toggle set. -/
theorem builder_frame (T : List String) (u : ℕ → ℚ) (cat : Catalog) :
    ((update_elements T u cat).1.raw.map nodeCore =
      cat.raw.map nodeCore) ∧
    ((update_elements T u cat).1.physics.map nodeCore =
      cat.physics.map nodeCore) ∧
    ((update_elements T u cat).1.statistical.map nodeCore =
      cat.statistical.map nodeCore) ∧
    ((update_elements T u cat).1.anomaly.map nodeCore =
      cat.anomaly.map nodeCore) ∧
    ((update_elements T u cat).1.outcomes.map nodeCore =
      cat.outcomes.map nodeCore) ∧
    ((update_elements T u cat).1.edges.map edgeEnds =
      cat.edges.map edgeEnds) := by
  simp only [update_elements]
  refine ⟨map_core_setColor _ _ _, ?_, ?_, ?_, map_core_setColor _ _ _, ?_⟩
  · split
    · exact map_core_setColor _ _ _
    · rfl
  · split
    · exact map_core_setColor _ _ _
    · rfl
  · split
    · exact map_core_setColor _ _ _
    · rfl
  · exact applyReweight_ends u _ 0 cat.edges

/-- C3 counterexample: a single call on the freshly defined catalog
changes it: the raw node records acquire color fields (even with every
layer off), and with the physics layer on and a legal draw of 1.09 the
stored base weight 0.9 of the first edge is overwritten with 0.981. -/
theorem builder_mutates_catalog :
    (update_elements [] (fun _ => 1) initCatalog).1.raw ≠ initCatalog.raw ∧
    ((update_elements [physicsTok] (fun _ => 1.09) initCatalog).1.edges.map
      EdgeRec.weight).head? = some 0.981 ∧
    (initCatalog.edges.map EdgeRec.weight).head? = some 0.9 ∧
    (0.981 : ℚ) ≠ 0.9 :=
  ⟨by decide, by decide, by decide, by decide⟩

/-! ## Claim C1 -/

theorem roundHalfEven_ge {m : ℤ} {q : ℚ} (h : (m : ℚ) ≤ q) :
    m ≤ roundHalfEven q := by
  have hf : m ≤ ⌊q⌋ := Int.le_floor.mpr h
  unfold roundHalfEven
  split_ifs <;> omega

theorem roundHalfEven_le {m : ℤ} {q : ℚ} (h : q ≤ (m : ℚ)) :
    roundHalfEven q ≤ m := by
  have hfl : (⌊q⌋ : ℚ) ≤ q := Int.floor_le q
  have hf : ⌊q⌋ ≤ m := by exact_mod_cast hfl.trans h
  unfold roundHalfEven
  split_ifs with h1 h2 h3
  · exact hf
  · have hq : (⌊q⌋ : ℚ) < (m : ℚ) := by linarith
    have h4 : ⌊q⌋ < m := by exact_mod_cast hq
    omega
  · exact hf
  · push_neg at h1
    have hq : (⌊q⌋ : ℚ) < (m : ℚ) := by linarith
    have h4 : ⌊q⌋ < m := by exact_mod_cast hq
    omega

theorem pyRound3_ge {m : ℤ} {x : ℚ} (h : (m : ℚ) ≤ x * 1000) :
    (m : ℚ) / 1000 ≤ pyRound3 x := by
  unfold pyRound3
  have h1 := roundHalfEven_ge h
  have h2 : (m : ℚ) ≤ (roundHalfEven (x * 1000) : ℚ) := by exact_mod_cast h1
  linarith

theorem pyRound3_le {m : ℤ} {x : ℚ} (h : x * 1000 ≤ (m : ℚ)) :
    pyRound3 x ≤ (m : ℚ) / 1000 := by
  unfold pyRound3
  have h1 := roundHalfEven_le h
  have h2 : ((roundHalfEven (x * 1000) : ℤ) : ℚ) ≤ (m : ℚ) := by
    exact_mod_cast h1
  linarith

/-- The rounded randomized weight stays within the relative bounds when
the stored weight is a multiple of one tenth (as all catalog base weights
are), because then both interval endpoints are exact multiples of one
thousandth. -/
theorem pyRound3_kdiv10 (k : ℕ) {uj : ℚ} (h9 : 0.9 ≤ uj)
    (h11 : uj ≤ 1.1) :
    0.9 * ((k : ℚ) / 10) ≤ pyRound3 (((k : ℚ) / 10) * uj) ∧
    pyRound3 (((k : ℚ) / 10) * uj) ≤ 1.1 * ((k : ℚ) / 10) := by
  have hk0 : (0 : ℚ) ≤ (k : ℚ) := Nat.cast_nonneg k
  have hprod1 : (0 : ℚ) ≤ (k : ℚ) * (uj - 0.9) :=
    mul_nonneg hk0 (by linarith)
  have hprod2 : (0 : ℚ) ≤ (k : ℚ) * (1.1 - uj) :=
    mul_nonneg hk0 (by linarith)
  have h1 : (((90 * k : ℕ) : ℤ) : ℚ) ≤ ((k : ℚ) / 10) * uj * 1000 := by
    push_cast
    nlinarith
  have h2 : ((k : ℚ) / 10) * uj * 1000 ≤ (((110 * k : ℕ) : ℤ) : ℚ) := by
    push_cast
    nlinarith
  constructor
  · have h3 := pyRound3_ge h1
    have heq : (0.9 : ℚ) * ((k : ℚ) / 10) =
        (((90 * k : ℕ) : ℤ) : ℚ) / 1000 := by
      push_cast
      ring
    rw [heq]
    exact h3
  · have h3 := pyRound3_le h2
    have heq : (1.1 : ℚ) * ((k : ℚ) / 10) =
        (((110 * k : ℕ) : ℤ) : ℚ) / 1000 := by
      push_cast
      ring
    rw [heq]
    exact h3

theorem pyRound3_base_bound {w uj : ℚ}
    (hw : w = 0.5 ∨ w = 0.6 ∨ w = 0.7 ∨ w = 0.8 ∨ w = 0.9)
    (h9 : 0.9 ≤ uj) (h11 : uj ≤ 1.1) :
    0.9 * w ≤ pyRound3 (w * uj) ∧ pyRound3 (w * uj) ≤ 1.1 * w := by
  rcases hw with h | h | h | h | h <;> subst h
  · have he : (0.5 : ℚ) = ((5 : ℕ) : ℚ) / 10 := by norm_num
    rw [he]
    exact pyRound3_kdiv10 5 h9 h11
  · have he : (0.6 : ℚ) = ((6 : ℕ) : ℚ) / 10 := by norm_num
    rw [he]
    exact pyRound3_kdiv10 6 h9 h11
  · have he : (0.7 : ℚ) = ((7 : ℕ) : ℚ) / 10 := by norm_num
    rw [he]
    exact pyRound3_kdiv10 7 h9 h11
  · have he : (0.8 : ℚ) = ((8 : ℕ) : ℚ) / 10 := by norm_num
    rw [he]
    exact pyRound3_kdiv10 8 h9 h11
  · have he : (0.9 : ℚ) = ((9 : ℕ) : ℚ) / 10 := by norm_num
    rw [he]
    exact pyRound3_kdiv10 9 h9 h11

/-- Every base weight of the fixed catalog is one of 0.5, 0.6, 0.7, 0.8,
0.9. -/
theorem base_weights : ∀ e ∈ BASE_EDGES,
    e.weight = 0.5 ∨ e.weight = 0.6 ∨ e.weight = 0.7 ∨ e.weight = 0.8 ∨
      e.weight = 0.9 := by
  decide

/-- C1 (amended): on the first call on the freshly defined catalog, for
every toggle set and every admissible draw stream (all draws within
`[0.9, 1.1]`), every emitted edge weight lies within
`[0.9 * base_weight, 1.1 * base_weight]` of the base weight fixed at
catalog-definition time.  The claim fails for repeated calls because the
builder overwrites the stored weights in place (see the counterexample
theorem). -/
theorem weight_bound_first_call (T : List String) (u : ℕ → ℚ)
    (hu : ∀ i, 0.9 ≤ u i ∧ u i ≤ 1.1) :
    ∀ d ∈ outputEdgeData (update_elements T u initCatalog).2,
      ∃ e ∈ BASE_EDGES, d.source = e.source ∧ d.target = e.target ∧
        0.9 * e.weight ≤ d.weight ∧ d.weight ≤ 1.1 * e.weight := by
  intro d hd
  simp only [update_elements] at hd
  rw [outputEdgeData_append, outputEdgeData_as_nodes,
    outputEdgeData_edge_elems, List.nil_append] at hd
  have h1 := List.mem_filter.mp hd
  obtain ⟨e, he, hs, ht, _, htrue⟩ := mem_applyReweight _ _ h1.1
  have hpe : edgeKeep _ e = true := (edgeKeep_congr _ hs ht).symm.trans h1.2
  obtain ⟨j, hj⟩ := htrue hpe
  have hbound := pyRound3_base_bound (base_weights e he) (hu j).1 (hu j).2
  rw [hj]
  exact ⟨e, he, hs, ht, hbound.1, hbound.2⟩

/-- Witness for the amended C1 theorem: the first output edge with the
physics layer on and the constant admissible draw 1. -/
theorem weight_bound_first_call_witness :
    ((0.9 : ℚ) ≤ 1 ∧ (1 : ℚ) ≤ 1.1) ∧
    (∃ e ∈ BASE_EDGES,
      (link ("active_power") ("power_efficiency") 0.9).source = e.source ∧
      (link ("active_power") ("power_efficiency") 0.9).target = e.target ∧
      0.9 * e.weight ≤
        (link ("active_power") ("power_efficiency") 0.9).weight ∧
      (link ("active_power") ("power_efficiency") 0.9).weight ≤
        1.1 * e.weight) :=
  ⟨by norm_num,
    weight_bound_first_call [physicsTok] (fun _ => 1)
      (fun _ => by norm_num)
      (link ("active_power") ("power_efficiency") 0.9) (by decide)⟩

/-- C1 counterexample: two successive calls with the admissible draw 1.09
push the first edge to weight 1.069, outside
`[0.9 * 0.9, 1.1 * 0.9] = [0.81, 0.99]` of its catalog base weight 0.9,
because the first call overwrote the stored weight with 0.981. -/
theorem weight_bound_repeated_call_violation :
    ((0.9 : ℚ) ≤ 1.09 ∧ (1.09 : ℚ) ≤ 1.1) ∧
    (outputEdgeData (update_elements [physicsTok] (fun _ => 1.09)
        ((update_elements [physicsTok] (fun _ => 1.09)
          initCatalog).1)).2).head? =
      some ⟨"active_power", "power_efficiency", 1.069⟩ ∧
    BASE_EDGES.head? = some ⟨"active_power", "power_efficiency", 0.9⟩ ∧
    ¬((1.069 : ℚ) ≤ 1.1 * 0.9) :=
  ⟨by decide, by decide, by decide, by decide⟩

/-- C7 counterexample: with the four chips of the application all clicked
once, the out-of-range index `-5` raises `IndexError` instead of yielding
no-action. -/
theorem resolve_chip_out_of_range_error :
    resolve_chip_selection (some (-5)) [1, 1, 1, 1] =
      Except.error indexErrorMsg ∧
    (Except.error indexErrorMsg : Except String ChipAction) ≠
      Except.ok ChipAction.noAction :=
  ⟨by decide, by decide⟩
